import Mathlib

/-!
# Verification of the decomposition-inference-merge pipeline

A shallow embedding of the core pipeline of `src/llm_providers.py`
(class `LLMProvider`): the normalizer and equivalence matcher
(`_entity_equiv`, `_relationship_equiv`), the tolerant response parser
(`_parse_json_response_tolerant` with `_create_error_response`), the
context windower (`_add_page_context`), and the page-by-page merge loop
of `analyze_pdf` together with `_analyze_cross_page_relationships`.

Modelling conventions:
* Python strings are `List Char` (or `String`, whose kernel data is a
  `List Char`); `len`, slicing and `str.strip` are translated to list
  operations.
* `unicodedata` (NFKD decomposition, combining classes) and `str.lower`
  are embedded as explicit per-character tables that agree with the real
  Unicode data on the character repertoire used here (ASCII, the Spanish
  diacritic letters, and a few compatibility symbols such as U+2116).
  Characters outside the table are left unchanged by every table.
* `json.loads` is a total recursive-descent parser over the JSON grammar
  (fuel-indexed; numbers are kept as their lexemes, which is enough
  because no claim compares numeric values).
* Exceptions become `Option`/sum results: the oracle call is a value of
  `OracleOutcome`, and every `try/except` boundary is an explicit match.
* Wall-clock metadata (`analysisDate`) is modelled as a constant, and log
  output is ignored; neither is observable by any claim.
-/

namespace Osint

/-! ## Characters and the normalizer (`norm` inside `_entity_equiv`) -/

/-- Left brace, written numerically. -/
def braceL : Char := Char.ofNat 123

/-- Right brace, written numerically. -/
def braceR : Char := Char.ofNat 125

/-- The combining marks produced by the decompositions in the table below:
U+0301 acute, U+0303 tilde, U+0308 diaeresis. -/
def combiningChar (c : Char) : Bool :=
  c.toNat = 769 || c.toNat = 771 || c.toNat = 776

/-- Model of Python `str.lower`, per character (full mapping may expand,
hence a list).  ASCII letters are mapped arithmetically; the accented
capitals used by the repository are mapped explicitly; every other
modelled character (including `№` U+2116 and `™` U+2122, which have no
lowercase form) is fixed. -/
def pyLowerChar (c : Char) : List Char :=
  if 65 ≤ c.toNat ∧ c.toNat ≤ 90 then [Char.ofNat (c.toNat + 32)]
  else if c = 'Á' then ['á']
  else if c = 'É' then ['é']
  else if c = 'Í' then ['í']
  else if c = 'Ó' then ['ó']
  else if c = 'Ú' then ['ú']
  else if c = 'Ñ' then ['ñ']
  else if c = 'Ü' then ['ü']
  else [c]

/-- Model of `unicodedata.normalize('NFKD', ·)`, per character: canonical
decomposition for the Latin letters with diacritics, compatibility
decomposition for `№` (U+2116 → "No") and `™` (U+2122 → "TM"); all other
modelled characters are their own decomposition. -/
def nfkdChar (c : Char) : List Char :=
  if c = 'á' then ['a', Char.ofNat 769]
  else if c = 'é' then ['e', Char.ofNat 769]
  else if c = 'í' then ['i', Char.ofNat 769]
  else if c = 'ó' then ['o', Char.ofNat 769]
  else if c = 'ú' then ['u', Char.ofNat 769]
  else if c = 'ñ' then ['n', Char.ofNat 771]
  else if c = 'ü' then ['u', Char.ofNat 776]
  else if c = '№' then ['N', 'o']
  else if c = '™' then ['T', 'M']
  else [c]

/-- The separator set removed by `norm`: the characters of the Python
literal `"-_\'\".,:;()[]{} "`. -/
def sepChars : List Char :=
  ['-', '_', '\'', '"', ',', '.', ':', ';', '(', ')', '[', ']',
   braceL, braceR, ' ']

/-- Membership in `sepChars`. -/
def sepChar (c : Char) : Bool := sepChars.contains c

/-- `charConcatMap f l` concatenates `f` over `l` (string-valued map). -/
def charConcatMap (f : Char → List Char) : List Char → List Char
  | [] => []
  | c :: cs => f c ++ charConcatMap f cs

/-- `norm` of `_entity_equiv`/`_relationship_equiv`, at character-list
level: lower-case, NFKD-decompose, drop combining marks, then delete the
separator set.  (NFKD's canonical reordering of combining marks is
irrelevant here because every combining mark is dropped immediately.) -/
def normChars (l : List Char) : List Char :=
  ((charConcatMap nfkdChar (charConcatMap pyLowerChar l)).filter
      (fun c => !(combiningChar c))).filter (fun c => !(sepChar c))

/-- `norm` on strings. -/
def normStr (s : String) : String := ⟨normChars s.data⟩

/-! ## Entities, relationships, equivalence (`_entity_equiv`,
`_relationship_equiv`) and the merge steps of `analyze_pdf` -/

/-- The closed set of entity types (the seven keys of `all_entities`). -/
inductive EntityType where
  | Person | Organization | Location | Date | Event | Object | Code
deriving DecidableEq, Repr

/-- The JSON key of each entity type. -/
def typeName : EntityType → String
  | .Person => "Person"
  | .Organization => "Organization"
  | .Location => "Location"
  | .Date => "Date"
  | .Event => "Event"
  | .Object => "Object"
  | .Code => "Code"

/-- All seven entity types (iteration order of `all_entities`). -/
def allTypes : List EntityType :=
  [.Person, .Organization, .Location, .Date, .Event, .Object, .Code]

/-- An observed entity: the fields of the entity dicts that the pipeline
reads (`.get('name', '')`, `.get('aliases', [])`); `translation` is the
optional field named by the data model and never touched by the merge. -/
structure Entity where
  name : String
  aliases : List String
  translation : String := ""
deriving DecidableEq, Repr

/-- `LLMProvider._entity_equiv`: equal normalized names, a name matching
an alias of the other (either direction), or intersecting normalized
alias sets. -/
def entityEquiv (e1 e2 : Entity) : Bool :=
  let n1 := normStr e1.name
  let n2 := normStr e2.name
  let a1 := e1.aliases.map normStr
  let a2 := e2.aliases.map normStr
  n1 == n2 || a2.contains n1 || a1.contains n2 ||
    a1.any (fun x => a2.contains x)

/-- A relationship: the fields read by `_relationship_equiv` plus the
`category`/`source` payload carried along unchanged. -/
structure Rel where
  subjectType : String
  subjectName : String
  action : String
  objectType : String
  objectName : String
  category : String := ""
  source : String := ""
deriving DecidableEq, Repr

/-- `LLMProvider._relationship_equiv`: the five normalized fields agree. -/
def relEquiv (r1 r2 : Rel) : Bool :=
  normStr r1.subjectType == normStr r2.subjectType &&
  normStr r1.subjectName == normStr r2.subjectName &&
  normStr r1.objectType == normStr r2.objectType &&
  normStr r1.objectName == normStr r2.objectName &&
  normStr r1.action == normStr r2.action

/-- The entity-merge step of `analyze_pdf` (lines 165-167): append the
incoming entity unless it is equivalent to a stored one; an equivalent
incoming entity is dropped, leaving the stored entity untouched. -/
def insertEntity (bucket : List Entity) (e : Entity) : List Entity :=
  if bucket.any (fun stored => entityEquiv e stored) then bucket
  else bucket ++ [e]

/-- The relationship-merge step of `analyze_pdf` (lines 171-173 and
188-190). -/
def insertRel (rels : List Rel) (r : Rel) : List Rel :=
  if rels.any (fun stored => relEquiv r stored) then rels
  else rels ++ [r]

/-- Merging a list of observed entities of one type, in order, into an
empty bucket. -/
def mergeBucket (es : List Entity) : List Entity :=
  es.foldl insertEntity []

/-! ## JSON values and a model of `json.loads` -/

/-- A parsed JSON value.  Numbers are kept as their source lexeme: no
claim compares numeric magnitudes, only structure. -/
inductive Json where
  | null
  | bool (b : Bool)
  | num (lexeme : String)
  | str (s : String)
  | arr (items : List Json)
  | obj (fields : List (String × Json))

/-- JSON insignificant whitespace (exactly the four characters the
Python lexer skips). -/
def jsonWs (c : Char) : Bool :=
  c.toNat = 32 || c.toNat = 9 || c.toNat = 10 || c.toNat = 13

/-- Skip insignificant whitespace. -/
def dropWs : List Char → List Char
  | c :: cs => if jsonWs c then dropWs cs else c :: cs
  | [] => []

/-- Hexadecimal digit value for `\u` escapes. -/
def hexDigitVal (c : Char) : Option Nat :=
  let n := c.toNat
  if 48 ≤ n ∧ n ≤ 57 then some (n - 48)
  else if 97 ≤ n ∧ n ≤ 102 then some (n - 87)
  else if 65 ≤ n ∧ n ≤ 70 then some (n - 55)
  else none

/-- Single-character escapes of the JSON grammar. -/
def escChar (c : Char) : Option Char :=
  if c = '"' then some '"'
  else if c = '\\' then some '\\'
  else if c = '/' then some '/'
  else if c = 'b' then some (Char.ofNat 8)
  else if c = 'f' then some (Char.ofNat 12)
  else if c = 'n' then some '\n'
  else if c = 'r' then some '\r'
  else if c = 't' then some '\t'
  else none

/-- Body of a JSON string literal, after the opening quote.  Raw control
characters are rejected (CPython's default `strict=True`); `\uXXXX`
decodes through `Char.ofNat` (lone surrogates, which Python tolerates,
are outside the repertoire used here). -/
def strBody (fuel : Nat) (acc : List Char) (l : List Char) :
    Option (String × List Char) :=
  match fuel with
  | 0 => none
  | fuel + 1 =>
    match l with
    | [] => none
    | c :: cs =>
      if c = '"' then some (⟨acc.reverse⟩, cs)
      else if c = '\\' then
        match cs with
        | [] => none
        | e :: cs2 =>
          if e = 'u' then
            match cs2 with
            | a :: b :: c3 :: d :: cs3 =>
              match hexDigitVal a, hexDigitVal b, hexDigitVal c3, hexDigitVal d with
              | some va, some vb, some vc, some vd =>
                  strBody fuel
                    (Char.ofNat (((va * 16 + vb) * 16 + vc) * 16 + vd) :: acc) cs3
              | _, _, _, _ => none
            | _ => none
          else
            match escChar e with
            | some ch => strBody fuel (ch :: acc) cs2
            | none => none
      else if c.toNat < 32 then none
      else strBody fuel (c :: acc) cs

/-- ASCII digit test. -/
def isDigitCh (c : Char) : Bool := 48 ≤ c.toNat && c.toNat ≤ 57

/-- Longest digit run and the remainder. -/
def spanDigits : List Char → List Char × List Char
  | c :: cs =>
    if isDigitCh c then
      let r := spanDigits cs
      (c :: r.1, r.2)
    else ([], c :: cs)
  | [] => ([], [])

/-- The JSON number lexeme `-?(0|[1-9][0-9]*)(\.[0-9]+)?([eE][+-]?[0-9]+)?`,
longest match, as Python's `NUMBER_RE` takes it. -/
def parseNumLex (l : List Char) : Option (List Char × List Char) :=
  let sgn : List Char × List Char :=
    match l with
    | c :: cs => if c = '-' then ([c], cs) else ([], l)
    | [] => ([], [])
  match sgn.2 with
  | [] => none
  | c :: cs =>
    if isDigitCh c then
      let ip : List Char × List Char :=
        if c = '0' then ([c], cs)
        else let s := spanDigits (c :: cs); (s.1, s.2)
      let fp : List Char × List Char :=
        match ip.2 with
        | d :: ds =>
          if d = '.' then
            let s := spanDigits ds
            if s.1.isEmpty then ([], ip.2) else (d :: s.1, s.2)
          else ([], ip.2)
        | [] => ([], ip.2)
      let ep : List Char × List Char :=
        match fp.2 with
        | e :: ds =>
          if e = 'e' || e = 'E' then
            let sg : List Char × List Char :=
              match ds with
              | s :: ds2 => if s = '+' || s = '-' then ([s], ds2) else ([], ds)
              | [] => ([], ds)
            let sp := spanDigits sg.2
            if sp.1.isEmpty then ([], fp.2) else (e :: (sg.1 ++ sp.1), sp.2)
          else ([], fp.2)
        | [] => ([], fp.2)
      some (sgn.1 ++ ip.1 ++ fp.1 ++ ep.1, ep.2)
    else none

/-- `pre` is an initial run of `l`. -/
def leadMatch : List Char → List Char → Bool
  | [], _ => true
  | _ :: _, [] => false
  | p :: ps, c :: cs => p == c && leadMatch ps cs

/-- Consume an expected literal tail. -/
def matchLit (lit l : List Char) : Option (List Char) :=
  if leadMatch lit l then some (l.drop lit.length) else none

/-- CPython dict update while building an object: a repeated key
overwrites in place, a fresh key appends. -/
def objInsert (fields : List (String × Json)) (k : String) (v : Json) :
    List (String × Json) :=
  if fields.any (fun p => p.1 == k) then
    fields.map (fun p => if p.1 == k then (k, v) else p)
  else fields ++ [(k, v)]

mutual

/-- One JSON value (fuel-indexed recursive descent). -/
def parseVal : Nat → List Char → Option (Json × List Char)
  | 0, _ => none
  | fuel + 1, l =>
    match dropWs l with
    | [] => none
    | c :: cs =>
      if c = braceL then
        match dropWs cs with
        | [] => none
        | d :: cs2 =>
          if d = braceR then some (.obj [], cs2)
          else parseObjFields fuel (d :: cs2) []
      else if c = '[' then
        match dropWs cs with
        | [] => none
        | d :: cs2 =>
          if d = ']' then some (.arr [], cs2)
          else parseArrItems fuel (d :: cs2) []
      else if c = '"' then
        match strBody (cs.length + 1) [] cs with
        | some (s, r) => some (.str s, r)
        | none => none
      else if c = 'n' then (matchLit ['u', 'l', 'l'] cs).map (fun r => (.null, r))
      else if c = 't' then (matchLit ['r', 'u', 'e'] cs).map (fun r => (.bool true, r))
      else if c = 'f' then
        (matchLit ['a', 'l', 's', 'e'] cs).map (fun r => (.bool false, r))
      else if c = 'N' then (matchLit ['a', 'N'] cs).map (fun r => (.num "NaN", r))
      else if c = 'I' then
        (matchLit ['n', 'f', 'i', 'n', 'i', 't', 'y'] cs).map
          (fun r => (.num "Infinity", r))
      else if c = '-' && leadMatch ['I', 'n', 'f', 'i', 'n', 'i', 't', 'y'] cs then
        some (.num "-Infinity", cs.drop 8)
      else if c = '-' || isDigitCh c then
        match parseNumLex (c :: cs) with
        | some (lex, r) => some (.num ⟨lex⟩, r)
        | none => none
      else none

/-- The items of a non-empty array, between `[` and `]`. -/
def parseArrItems : Nat → List Char → List Json → Option (Json × List Char)
  | 0, _, _ => none
  | fuel + 1, l, acc =>
    match parseVal fuel l with
    | none => none
    | some (v, r) =>
      match dropWs r with
      | c :: cs =>
        if c = ',' then parseArrItems fuel cs (v :: acc)
        else if c = ']' then some (.arr (v :: acc).reverse, cs)
        else none
      | [] => none

/-- The members of a non-empty object, between the braces. -/
def parseObjFields : Nat → List Char → List (String × Json) →
    Option (Json × List Char)
  | 0, _, _ => none
  | fuel + 1, l, acc =>
    match dropWs l with
    | c :: cs =>
      if c = '"' then
        match strBody (cs.length + 1) [] cs with
        | none => none
        | some (k, r1) =>
          match dropWs r1 with
          | d :: r2 =>
            if d = ':' then
              match parseVal fuel r2 with
              | none => none
              | some (v, r3) =>
                match dropWs r3 with
                | e :: r4 =>
                  if e = ',' then parseObjFields fuel r4 (objInsert acc k v)
                  else if e = braceR then some (.obj (objInsert acc k v), r4)
                  else none
                | [] => none
            else none
          | [] => none
      else none
    | [] => none

end

/-- Model of `json.loads`: parse one value, then require only trailing
whitespace (`Extra data` otherwise). -/
def jsonLoads (l : List Char) : Option Json :=
  match parseVal (l.length + 1) l with
  | some (v, rest) => if dropWs rest = [] then some v else none
  | none => none

/-! ## The tolerant parser (`_parse_json_response_tolerant`) and
`_create_error_response` -/

/-- Python whitespace for `str.strip` (space, tab, LF, CR, VT, FF cover
the repertoire used here). -/
def pyWs (c : Char) : Bool :=
  c.toNat = 32 || c.toNat = 9 || c.toNat = 10 || c.toNat = 13 ||
    c.toNat = 11 || c.toNat = 12

/-- Model of `str.strip()`. -/
def strTrim (l : List Char) : List Char :=
  ((l.dropWhile pyWs).reverse.dropWhile pyWs).reverse

/-- The fence stripping of lines 543-547: strip, drop a leading
"```json" (7 characters), drop a trailing "```". -/
def cleanResponse (l : List Char) : List Char :=
  let t0 := strTrim l
  let t1 := if leadMatch ("```json".data) t0 then t0.drop 7 else t0
  if leadMatch ("```".data.reverse) t1.reverse then t1.take (t1.length - 3) else t1

/-- Model of `str.rfind` for one character: index of the last
occurrence, `-1` when absent. -/
def rlast (c : Char) : List Char → Int
  | [] => -1
  | x :: xs =>
    let r := rlast c xs
    if r ≥ 0 then r + 1 else if x == c then 0 else -1

/-- `max(cleaned.rfind("}"), cleaned.rfind("]"))`. -/
def lastClosePos (l : List Char) : Int := max (rlast braceR l) (rlast ']' l)

/-- `needle` occurs as a contiguous run (Python `in` on strings). -/
def hasSub (needle : List Char) : List Char → Bool
  | [] => needle.isEmpty
  | c :: cs => leadMatch needle (c :: cs) || hasSub needle cs

/-- The message built on strict-and-recovery failure (the model drops
the appended `str(e)` exception detail, which no claim observes). -/
def malformedMsg : String := "Error al parsear respuesta del LLM"

/-- The message built when the refusal sentinel is found. -/
def promptRejectedMsg : String := "El LLM detectó contenido potencialmente problemático"

/-- The seven empty buckets of `_create_error_response`. -/
def emptyEntitiesJson : Json :=
  .obj (allTypes.map (fun t => (typeName t, Json.arr [])))

/-- `LLMProvider._create_error_response`: the structurally well-formed
reply carrying the message; `analysisDate` and the provider name are
modelled as constants. -/
def createErrorResponse (msg : String) : Json :=
  .obj [("documentAnalysis", .obj
    [("metadata", .obj
      [("title", .str "Error"), ("analysisDate", .str ""),
       ("provider", .str "LLMProvider"), ("error", .str msg)]),
     ("entities", emptyEntitiesJson),
     ("relationships", .arr [])])]

/-- `LLMProvider._parse_json_response_tolerant`: strict parse of the
cleaned response; on failure truncate at the right-most `}`/`]` when its
index is positive and retry; on failure again, the refusal sentinel
(searched in the original response) selects the rejection message,
otherwise the malformed message.  The outer `except` of the source makes
the function total, as this model is by construction. -/
def parseTolerant (s : String) : Json :=
  let cleaned := cleanResponse s.data
  match jsonLoads cleaned with
  | some v => v
  | none =>
    let lp := lastClosePos cleaned
    let retried : Option Json :=
      if lp > 0 then jsonLoads (cleaned.take (lp.toNat + 1)) else none
    match retried with
    | some v => v
    | none =>
      if hasSub ("Prompt Attack Detected".data) s.data then
        createErrorResponse promptRejectedMsg
      else createErrorResponse malformedMsg

/-! ## The context windower (`_add_page_context`) -/

/-- Python `text[-n:]` guarded by `len(text) > n` (lines 231-234): the
trailing `n` characters when the text is longer, the whole text
otherwise.  (`text[-0:]` is the whole string, hence the inner guard.) -/
def tailSlice (n : Nat) (l : List Char) : List Char :=
  if l.length > n then (if n = 0 then l else l.drop (l.length - n)) else l

/-- Python `text[:n]` guarded by `len(text) > n` (lines 256-259). -/
def headSlice (n : Nat) (l : List Char) : List Char :=
  if l.length > n then l.take n else l

/-- `"\n".join(parts)`. -/
def joinNl : List (List Char) → List Char
  | [] => []
  | [p] => p
  | p :: ps => p ++ '\n' :: joinNl ps

/-- `LLMProvider._add_page_context`.  `pages` holds the final text of
every page (the direct-extraction/recognition fallback of the source is
the out-of-scope `PageSource` boundary, so neighbour loading never
raises in the model).  A neighbour segment is kept only when its sliced
context is non-blank (`if prev_context.strip():`). -/
def addPageContext (pages : List (List Char)) (pageText : List Char)
    (i total overlap : Nat) : List Char :=
  let prevParts : List (List Char) :=
    if i > 0 then
      let ctx := tailSlice overlap (pages.getD (i - 1) [])
      if strTrim ctx ≠ [] then
        ["[CONTEXTO PÁGINA ANTERIOR]\n".data ++ ctx ++ ['\n']]
      else []
    else []
  let nextParts : List (List Char) :=
    if i < total - 1 then
      let ctx := headSlice overlap (pages.getD (i + 1) [])
      if strTrim ctx ≠ [] then
        ["\n[CONTEXTO PÁGINA SIGUIENTE]\n".data ++ ctx]
      else []
    else []
  joinNl (prevParts ++
    ["[PÁGINA ".data ++ (Nat.repr (i + 1)).data ++ "]\n".data ++ pageText] ++
    nextParts)

/-! ## The page loop of `analyze_pdf` and the cross-page pass -/

/-- The two failure kinds the oracle boundary may raise
(`ContentFilterBlocked` is recognized by message inspection at line 285;
any other exception is the transport case — both are swallowed into
`None` by `_analyze_single_page`). -/
inductive OracleFailure where
  | contentFilter | transport
deriving DecidableEq, Repr

/-- One oracle call: a raised failure or a raw reply string. -/
inductive OracleOutcome where
  | raise (f : OracleFailure)
  | reply (s : String)

/-- `LLMProvider._analyze_single_page`: `None` on blank input, `None`
when the oracle raises (both failure kinds are caught), otherwise the
tolerant parse of the reply. -/
def analyzeSinglePage (unit : List Char) (o : OracleOutcome) : Option Json :=
  if strTrim unit = [] then none
  else
    match o with
    | .raise _ => none
    | .reply s => some (parseTolerant s)

/-- The accumulator of `analyze_pdf` (`all_entities`,
`all_relationships`, `errors`), which is also the shape of the final
result. -/
@[ext]
structure AnalysisResult where
  entities : EntityType → List Entity
  relationships : List Rel
  errors : List String

/-- First field with the given key (the parser already collapses
duplicate keys, so this is dict lookup). -/
def lookupField : List (String × Json) → String → Option Json
  | [], _ => none
  | (k, v) :: fs, key => if k == key then some v else lookupField fs key

/-- A string-valued field, defaulting to `""`. -/
def strField (fs : List (String × Json)) (key : String) : String :=
  match lookupField fs key with
  | some (.str s) => s
  | _ => ""

/-- The entity fields the pipeline reads, with the `.get` defaults
(non-string members of malformed payloads are defaulted rather than
modelling the `AttributeError` they would raise mid-merge). -/
def entityOfJson : Json → Entity
  | .obj fs =>
    { name := strField fs "name"
      aliases :=
        match lookupField fs "aliases" with
        | some (.arr xs) =>
          xs.filterMap (fun j => match j with | .str s => some s | _ => none)
        | _ => []
      translation := strField fs "translation" }
  | _ => { name := "", aliases := [], translation := "" }

/-- A sub-object's string field, as `rel.get('subject', {}).get('type', '')`. -/
def endpointField (fs : List (String × Json)) (key sub : String) : String :=
  match lookupField fs key with
  | some (.obj efs) => strField efs sub
  | _ => ""

/-- The relationship fields the pipeline reads. -/
def relOfJson : Json → Rel
  | .obj fs =>
    { subjectType := endpointField fs "subject" "type"
      subjectName := endpointField fs "subject" "name"
      action := strField fs "action"
      objectType := endpointField fs "object" "type"
      objectName := endpointField fs "object" "name"
      category := strField fs "category"
      source := strField fs "source" }
  | _ =>
    { subjectType := "", subjectName := "", action := "", objectType := ""
      objectName := "", category := "", source := "" }

/-- `page_result['documentAnalysis'].get('entities', {}).get(type, [])`. -/
def entityBuckets (dafs : List (String × Json)) (t : EntityType) : List Entity :=
  match lookupField dafs "entities" with
  | some (.obj efs) =>
    match lookupField efs (typeName t) with
    | some (.arr xs) => xs.map entityOfJson
    | _ => []
  | _ => []

/-- `page_result['documentAnalysis'].get('relationships', [])`. -/
def relBucket (dafs : List (String × Json)) : List Rel :=
  match lookupField dafs "relationships" with
  | some (.arr xs) => xs.map relOfJson
  | _ => []

/-- The merge body of lines 162-173: fold every incoming entity through
`insertEntity` in its type's bucket, then every incoming relationship
through `insertRel`. -/
def mergeChunk (acc : AnalysisResult) (dafs : List (String × Json)) :
    AnalysisResult :=
  { entities := fun t => (entityBuckets dafs t).foldl insertEntity (acc.entities t)
    relationships := (relBucket dafs).foldl insertRel acc.relationships
    errors := acc.errors }

/-- The error entry appended at line 175. -/
def pageErrorMsg (i : Nat) : String :=
  "Página " ++ Nat.repr (i + 1) ++ ": No se pudo analizar"

/-- One iteration of the page loop (lines 135-181): build the unit,
analyze it, and either merge a reply carrying `documentAnalysis` or
append one error entry.  A reply of any other shape ends in the same
single error entry (directly at line 175, or through the `TypeError`
the subscription raises, caught at line 177). -/
def processPage (pages : List (List Char)) (total : Nat)
    (acc : AnalysisResult) (i : Nat) (o : OracleOutcome) : AnalysisResult :=
  let unit := addPageContext pages (pages.getD i []) i total 200
  match analyzeSinglePage unit o with
  | some (.obj fs) =>
    match lookupField fs "documentAnalysis" with
    | some (.obj dafs) => mergeChunk acc dafs
    | _ => { acc with errors := acc.errors ++ [pageErrorMsg i] }
  | _ => { acc with errors := acc.errors ++ [pageErrorMsg i] }

/-- `LLMProvider._analyze_cross_page_relationships`: skip the call when
every bucket is empty; a raised failure yields `[]`; a reply parses
tolerantly and only a JSON array contributes (**any** other value,
including the structured error response, is discarded by the
`isinstance(parsed, list)` guard). -/
def crossPageRelationships (o : OracleOutcome)
    (ents : EntityType → List Entity) : List Rel :=
  if allTypes.all (fun t => (ents t).isEmpty) then []
  else
    match o with
    | .raise _ => []
    | .reply s =>
      match parseTolerant s with
      | .arr xs => xs.map relOfJson
      | _ => []

/-- `LLMProvider.analyze_pdf` on an already-paginated document: the page
loop over an initially empty accumulator, then the cross-page
relationships merged through the same `insertRel`. -/
def analyzePdf (oracle : Nat → OracleOutcome) (cross : OracleOutcome)
    (pages : List (List Char)) : AnalysisResult :=
  let start : AnalysisResult :=
    { entities := fun _ => [], relationships := [], errors := [] }
  let merged := (List.range pages.length).foldl
    (fun acc i => processPage pages pages.length acc i (oracle i)) start
  let extra := crossPageRelationships cross merged.entities
  { merged with relationships := extra.foldl insertRel merged.relationships }

/-- The character repertoire over which `norm`'s idempotence is settled
positively: printable ASCII (letters, digits, the separator set, common
symbols) and the Spanish diacritic letters in both cases.  The
compatibility symbols `№`/`™` are deliberately outside it. -/
def goodChars : List Char :=
  " !#$%&()*+,-./0123456789:;<=>?@ABCDEFGHIJKLMNOPQRSTUVWXYZ[\\]^_abcdefghijklmnopqrstuvwxyz|~".data
    ++ ['\'', '"', braceL, braceR] ++ "áéíóúñüÁÉÍÓÚÑÜ".data

/-! ## Equivalence lemmas -/

theorem contains_normStr_iff (x : String) (l : List String) :
    (l.map normStr).contains x = true ↔ ∃ a ∈ l, normStr a = x := by
  simp only [List.contains_eq_any_beq, List.any_eq_true, List.mem_map, beq_iff_eq]
  constructor
  · intro h
    obtain ⟨y, ⟨a, ha, rfl⟩, hy⟩ := h
    exact ⟨a, ha, hy.symm⟩
  · intro h
    obtain ⟨a, ha, hx⟩ := h
    exact ⟨normStr a, ⟨a, ha, rfl⟩, hx.symm⟩

theorem entityEquiv_iff (e1 e2 : Entity) :
    entityEquiv e1 e2 = true ↔
      normStr e1.name = normStr e2.name ∨
      (∃ a ∈ e2.aliases, normStr a = normStr e1.name) ∨
      (∃ a ∈ e1.aliases, normStr a = normStr e2.name) ∨
      (∃ a ∈ e1.aliases, ∃ b ∈ e2.aliases, normStr a = normStr b) := by
  simp only [entityEquiv, Bool.or_eq_true, beq_iff_eq, contains_normStr_iff,
    List.any_eq_true, List.mem_map]
  constructor
  · intro h
    rcases h with ((h | h) | h) | h
    · exact Or.inl h
    · exact Or.inr (Or.inl h)
    · exact Or.inr (Or.inr (Or.inl h))
    · obtain ⟨x, ⟨a, ha, rfl⟩, b, hb, hba⟩ := h
      exact Or.inr (Or.inr (Or.inr ⟨a, ha, b, hb, hba.symm⟩))
  · intro h
    rcases h with h | h | h | h
    · exact Or.inl (Or.inl (Or.inl h))
    · exact Or.inl (Or.inl (Or.inr h))
    · exact Or.inl (Or.inr h)
    · obtain ⟨a, ha, b, hb, hab⟩ := h
      exact Or.inr ⟨normStr a, ⟨a, ha, rfl⟩, b, hb, hab.symm⟩

theorem entityEquiv_comm (e1 e2 : Entity) :
    entityEquiv e1 e2 = entityEquiv e2 e1 := by
  rw [Bool.eq_iff_iff, entityEquiv_iff, entityEquiv_iff]
  constructor <;> intro h <;> rcases h with h | h | h | h
  · exact Or.inl h.symm
  · exact Or.inr (Or.inr (Or.inl h))
  · exact Or.inr (Or.inl h)
  · obtain ⟨a, ha, b, hb, hab⟩ := h
    exact Or.inr (Or.inr (Or.inr ⟨b, hb, a, ha, hab.symm⟩))
  · exact Or.inl h.symm
  · exact Or.inr (Or.inr (Or.inl h))
  · exact Or.inr (Or.inl h)
  · obtain ⟨a, ha, b, hb, hab⟩ := h
    exact Or.inr (Or.inr (Or.inr ⟨b, hb, a, ha, hab.symm⟩))

theorem relEquiv_iff (r1 r2 : Rel) :
    relEquiv r1 r2 = true ↔
      normStr r1.subjectType = normStr r2.subjectType ∧
      normStr r1.subjectName = normStr r2.subjectName ∧
      normStr r1.objectType = normStr r2.objectType ∧
      normStr r1.objectName = normStr r2.objectName ∧
      normStr r1.action = normStr r2.action := by
  simp only [relEquiv, Bool.and_eq_true, beq_iff_eq]
  tauto

theorem relEquiv_comm (r1 r2 : Rel) : relEquiv r1 r2 = relEquiv r2 r1 := by
  rw [Bool.eq_iff_iff, relEquiv_iff, relEquiv_iff]
  constructor <;>
    (intro h
     obtain ⟨a, b, c, d, e⟩ := h
     exact ⟨a.symm, b.symm, c.symm, d.symm, e.symm⟩)

/-! ## Merge-step lemmas -/

theorem insertEntity_of_matched (bucket : List Entity) (e : Entity)
    (h : ∃ x ∈ bucket, entityEquiv e x = true) :
    insertEntity bucket e = bucket := by
  unfold insertEntity
  rw [if_pos (List.any_eq_true.mpr h)]

theorem insertEntity_of_unmatched (bucket : List Entity) (e : Entity)
    (h : ∀ x ∈ bucket, entityEquiv e x = false) :
    insertEntity bucket e = bucket ++ [e] := by
  unfold insertEntity
  rw [if_neg]
  simp only [List.any_eq_true, not_exists, not_and]
  intro x hx
  simp [h x hx]

theorem insertRel_of_matched (rels : List Rel) (r : Rel)
    (h : ∃ x ∈ rels, relEquiv r x = true) :
    insertRel rels r = rels := by
  unfold insertRel
  rw [if_pos (List.any_eq_true.mpr h)]

theorem insertRel_of_unmatched (rels : List Rel) (r : Rel)
    (h : ∀ x ∈ rels, relEquiv r x = false) :
    insertRel rels r = rels ++ [r] := by
  unfold insertRel
  rw [if_neg]
  simp only [List.any_eq_true, not_exists, not_and]
  intro x hx
  simp [h x hx]

theorem pairwise_insertEntity (bucket : List Entity) (e : Entity)
    (h : bucket.Pairwise fun a b => entityEquiv a b = false) :
    (insertEntity bucket e).Pairwise fun a b => entityEquiv a b = false := by
  unfold insertEntity
  split
  · exact h
  · rename_i hany
    rw [List.pairwise_append]
    refine ⟨h, List.pairwise_singleton _ _, ?_⟩
    intro a ha b hb
    rw [List.mem_singleton] at hb
    subst hb
    rw [entityEquiv_comm]
    rcases hb2 : entityEquiv b a with _ | _
    · rfl
    · exact absurd (List.any_eq_true.mpr ⟨a, ha, hb2⟩) hany

theorem pairwise_foldl_insertEntity (l : List Entity) (acc : List Entity)
    (h : acc.Pairwise fun a b => entityEquiv a b = false) :
    (l.foldl insertEntity acc).Pairwise fun a b => entityEquiv a b = false := by
  induction l generalizing acc with
  | nil => exact h
  | cons e l' ih => exact ih _ (pairwise_insertEntity acc e h)

theorem pairwise_insertRel (rels : List Rel) (r : Rel)
    (h : rels.Pairwise fun a b => relEquiv a b = false) :
    (insertRel rels r).Pairwise fun a b => relEquiv a b = false := by
  unfold insertRel
  split
  · exact h
  · rename_i hany
    rw [List.pairwise_append]
    refine ⟨h, List.pairwise_singleton _ _, ?_⟩
    intro a ha b hb
    rw [List.mem_singleton] at hb
    subst hb
    rw [relEquiv_comm]
    rcases hb2 : relEquiv b a with _ | _
    · rfl
    · exact absurd (List.any_eq_true.mpr ⟨a, ha, hb2⟩) hany

theorem pairwise_foldl_insertRel (l : List Rel) (acc : List Rel)
    (h : acc.Pairwise fun a b => relEquiv a b = false) :
    (l.foldl insertRel acc).Pairwise fun a b => relEquiv a b = false := by
  induction l generalizing acc with
  | nil => exact h
  | cons r l' ih => exact ih _ (pairwise_insertRel acc r h)

theorem foldl_insertEntity_eq_append (l acc : List Entity)
    (hacc : ∀ a ∈ acc, ∀ b ∈ l, entityEquiv b a = false)
    (hl : l.Pairwise fun a b => entityEquiv b a = false) :
    l.foldl insertEntity acc = acc ++ l := by
  induction l generalizing acc with
  | nil => simp
  | cons b l' ih =>
    obtain ⟨hhead, htail⟩ := List.pairwise_cons.mp hl
    have hstep : insertEntity acc b = acc ++ [b] :=
      insertEntity_of_unmatched acc b
        (fun x hx => hacc x hx b (List.mem_cons_self b l'))
    rw [List.foldl_cons, hstep, ih (acc ++ [b]) ?_ htail, List.append_assoc]
    · rfl
    · intro a ha c hc
      rcases List.mem_append.mp ha with ha | ha
      · exact hacc a ha c (List.mem_cons_of_mem b hc)
      · rw [List.mem_singleton] at ha
        subst ha
        exact hhead c hc

theorem mergeBucket_eq_self (l : List Entity)
    (hl : l.Pairwise fun a b => entityEquiv b a = false) :
    mergeBucket l = l := by
  unfold mergeBucket
  rw [foldl_insertEntity_eq_append l [] (by intro a ha; cases ha) hl]
  rfl

/-! ## Claim C1 — order-(in)dependence of the entity merge -/

/-- C1, counterexample.  Merging the spec's own example pair in the two
orders yields different canonical sets: `Beijing` first keeps `Beijing`
with no aliases and drops `Pekín` entirely, while `Pekín` first keeps
`Pekín` (with alias `Beijing`) and drops `Beijing` — the final canonical
set and the alias membership both depend on the order, against the
claim. -/
theorem mergeBucket_order_cex :
    mergeBucket [⟨"Beijing", [], ""⟩, ⟨"Pekín", ["Beijing"], ""⟩] =
      [⟨"Beijing", [], ""⟩] ∧
    mergeBucket [⟨"Pekín", ["Beijing"], ""⟩, ⟨"Beijing", [], ""⟩] =
      [⟨"Pekín", ["Beijing"], ""⟩] ∧
    (⟨"Beijing", [], ""⟩ : Entity) ≠ ⟨"Pekín", ["Beijing"], ""⟩ := by
  refine ⟨?_, ?_, ?_⟩ <;> decide

/-- C1, amended: merging a multiset of observed entities of one type is
order-independent only when the observed entities are pairwise
non-equivalent; then every permutation yields the same canonical set
(each input entity kept once, aliases untouched).  In general an
incoming entity equivalent to a stored one is discarded outright, so
different orders can differ even in which names survive. -/
theorem mergeBucket_perm_of_pairwise_inequiv (l1 l2 : List Entity)
    (hp : l1.Perm l2)
    (h : l1.Pairwise fun a b => entityEquiv a b = false ∧ entityEquiv b a = false) :
    (mergeBucket l1).Perm (mergeBucket l2) := by
  have h2 := (List.Perm.pairwise_iff (fun hab => ⟨hab.2, hab.1⟩) hp).mp h
  rw [mergeBucket_eq_self l1 (h.imp fun hab => hab.2),
    mergeBucket_eq_self l2 (h2.imp fun hab => hab.2)]
  exact hp

/-- Witness for `mergeBucket_perm_of_pairwise_inequiv` at a concrete
pair of inequivalent entities. -/
theorem mergeBucket_perm_witness :
    (mergeBucket [⟨"Ana", [], ""⟩, ⟨"Luis", [], ""⟩]).Perm
      (mergeBucket [⟨"Luis", [], ""⟩, ⟨"Ana", [], ""⟩]) :=
  mergeBucket_perm_of_pairwise_inequiv _ _ (by decide) (by decide)

/-! ## Claim C2 — what the merge does with an equivalent incoming entity -/

/-- C2, counterexample.  Merging incoming `Pekín` (alias `Beijing`,
non-empty translation) into a bucket holding the equivalent `Beijing`
leaves the bucket exactly as it was: the stored entity's alias list
stays empty — the incoming aliases are *not* unioned in — and its empty
translation is *not* filled from the incoming entity. -/
theorem insertEntity_no_alias_union_cex :
    insertEntity [⟨"Beijing", [], ""⟩] ⟨"Pekín", ["Beijing"], "Pekín"⟩ =
      [⟨"Beijing", [], ""⟩] ∧
    (insertEntity [⟨"Beijing", [], ""⟩] ⟨"Pekín", ["Beijing"], "Pekín"⟩).all
      (fun e => !(e.aliases.contains "Beijing") && e.translation == "") = true := by
  constructor <;> decide

/-- C2, amended: when some stored canonical entity of the type is
equivalent to the incoming one, the incoming entity is discarded whole
and the accumulator is unchanged (no alias union, no translation copy);
only when no stored entity is equivalent is the incoming appended as a
new canonical entity. -/
theorem insertEntity_drop_or_append (bucket : List Entity) (e : Entity) :
    ((∃ x ∈ bucket, entityEquiv e x = true) → insertEntity bucket e = bucket) ∧
    ((∀ x ∈ bucket, entityEquiv e x = false) →
      insertEntity bucket e = bucket ++ [e]) :=
  ⟨insertEntity_of_matched bucket e, insertEntity_of_unmatched bucket e⟩

/-- Witness for `insertEntity_drop_or_append`: one merged (equivalent by
case-insensitive name) and one appended incoming entity. -/
theorem insertEntity_drop_or_append_witness :
    insertEntity [⟨"Ana", [], ""⟩] ⟨"ANA", [], ""⟩ = [⟨"Ana", [], ""⟩] ∧
    insertEntity [⟨"Ana", [], ""⟩] ⟨"Luis", [], ""⟩ =
      [⟨"Ana", [], ""⟩, ⟨"Luis", [], ""⟩] :=
  ⟨(insertEntity_drop_or_append [⟨"Ana", [], ""⟩] ⟨"ANA", [], ""⟩).1
      ⟨⟨"Ana", [], ""⟩, by decide, by decide⟩,
   (insertEntity_drop_or_append [⟨"Ana", [], ""⟩] ⟨"Luis", [], ""⟩).2
      (by decide)⟩

/-! ## Claim C6 — the equivalence test -/

/-- C6: for entities of one type the test returns true exactly when the
normalized names agree, a normalized name matches a normalized alias of
the other entity (either direction), or the normalized alias sets
intersect; the test is symmetric; and the merge touches only the bucket
of the incoming entity's type, so entities of different types are never
merged into each other. -/
theorem entity_equiv_characterization :
    (∀ e1 e2 : Entity, (entityEquiv e1 e2 = true ↔
      normStr e1.name = normStr e2.name ∨
      (∃ a ∈ e2.aliases, normStr a = normStr e1.name) ∨
      (∃ a ∈ e1.aliases, normStr a = normStr e2.name) ∨
      (∃ a ∈ e1.aliases, ∃ b ∈ e2.aliases, normStr a = normStr b))) ∧
    (∀ e1 e2 : Entity, entityEquiv e1 e2 = entityEquiv e2 e1) ∧
    (∀ (acc : AnalysisResult) (dafs : List (String × Json)) (t : EntityType),
      entityBuckets dafs t = [] →
      (mergeChunk acc dafs).entities t = acc.entities t) := by
  refine ⟨entityEquiv_iff, entityEquiv_comm, ?_⟩
  intro acc dafs t h
  simp [mergeChunk, h]

/-- Witness for `entity_equiv_characterization` at concrete inputs:
symmetry on an accent/case variant pair, and bucket isolation for a
chunk carrying no `Person` entities. -/
theorem entity_equiv_characterization_witness :
    (entityEquiv ⟨"Avión", [], ""⟩ ⟨"AVION", [], ""⟩ =
      entityEquiv ⟨"AVION", [], ""⟩ ⟨"Avión", [], ""⟩) ∧
    (mergeChunk { entities := fun _ => [], relationships := [], errors := [] }
        []).entities .Person = [] :=
  ⟨entity_equiv_characterization.2.1 ⟨"Avión", [], ""⟩ ⟨"AVION", [], ""⟩,
   entity_equiv_characterization.2.2
    { entities := fun _ => [], relationships := [], errors := [] } [] .Person
    (by decide)⟩

/-! ## Claim C7 — the deduplication invariant of the accumulator -/

theorem inv_processPage (pages : List (List Char)) (total : Nat)
    (acc : AnalysisResult) (i : Nat) (o : OracleOutcome)
    (he : ∀ t, (acc.entities t).Pairwise fun a b => entityEquiv a b = false)
    (hr : acc.relationships.Pairwise fun a b => relEquiv a b = false) :
    (∀ t, ((processPage pages total acc i o).entities t).Pairwise
      fun a b => entityEquiv a b = false) ∧
    ((processPage pages total acc i o).relationships.Pairwise
      fun a b => relEquiv a b = false) := by
  cases hA : analyzeSinglePage (addPageContext pages (pages.getD i []) i total 200) o
  case none => simp only [processPage, hA]; exact ⟨he, hr⟩
  case some j =>
    cases j
    case obj fs =>
      cases hL : lookupField fs "documentAnalysis"
      case none => simp only [processPage, hA, hL]; exact ⟨he, hr⟩
      case some da =>
        cases da
        case obj dafs =>
          simp only [processPage, hA, hL]
          exact ⟨fun t => pairwise_foldl_insertEntity _ _ (he t),
            pairwise_foldl_insertRel _ _ hr⟩
        all_goals (simp only [processPage, hA, hL]; exact ⟨he, hr⟩)
    all_goals (simp only [processPage, hA]; exact ⟨he, hr⟩)

theorem inv_pageLoop (pages : List (List Char)) (oracle : Nat → OracleOutcome)
    (l : List Nat) (acc : AnalysisResult)
    (he : ∀ t, (acc.entities t).Pairwise fun a b => entityEquiv a b = false)
    (hr : acc.relationships.Pairwise fun a b => relEquiv a b = false) :
    (∀ t, ((l.foldl
        (fun a i => processPage pages pages.length a i (oracle i)) acc).entities
        t).Pairwise fun a b => entityEquiv a b = false) ∧
    ((l.foldl
        (fun a i => processPage pages pages.length a i (oracle i)) acc).relationships.Pairwise
      fun a b => relEquiv a b = false) := by
  induction l generalizing acc with
  | nil => exact ⟨he, hr⟩
  | cons i l' ih =>
    obtain ⟨he', hr'⟩ := inv_processPage pages pages.length acc i (oracle i) he hr
    exact ih _ he' hr'

/-- C7: every result the pipeline can produce — for any oracle behaviour
per chunk, any cross-pass behaviour and any page list — holds no two
mutually equivalent entities within a type and no two relationships with
equal normalized 5-tuples; the merge steps and the cross-chunk pass all
preserve this invariant, so it holds of the final `AnalysisResult`. -/
theorem analysis_result_invariant (oracle : Nat → OracleOutcome)
    (cross : OracleOutcome) (pages : List (List Char)) :
    (∀ t, ((analyzePdf oracle cross pages).entities t).Pairwise
      fun a b => entityEquiv a b = false ∧ entityEquiv b a = false) ∧
    ((analyzePdf oracle cross pages).relationships.Pairwise
      fun a b => relEquiv a b = false ∧ relEquiv b a = false) := by
  obtain ⟨he, hr⟩ := inv_pageLoop pages oracle (List.range pages.length)
    { entities := fun _ => [], relationships := [], errors := [] }
    (fun _ => List.Pairwise.nil) List.Pairwise.nil
  constructor
  · intro t
    exact (he t).imp fun hab => ⟨hab, (entityEquiv_comm _ _).trans hab⟩
  · exact (pairwise_foldl_insertRel _ _ hr).imp
      fun hab => ⟨hab, (relEquiv_comm _ _).trans hab⟩

/-! ## Claim C3 — per-chunk failure isolation -/

theorem mem_dropWhile_of_not (p : Char → Bool) (l : List Char) (c : Char)
    (hc : c ∈ l) (hp : p c = false) : c ∈ l.dropWhile p := by
  induction l with
  | nil => cases hc
  | cons x xs ih =>
    rw [List.dropWhile_cons]
    rcases List.mem_cons.mp hc with rfl | hc2
    · rw [hp]
      simp
    · split
      · exact ih hc2
      · exact List.mem_cons_of_mem x hc2

theorem strTrim_ne_nil_of_mem (l : List Char) (c : Char)
    (hc : c ∈ l) (hp : pyWs c = false) : strTrim l ≠ [] := by
  intro h
  unfold strTrim at h
  rw [List.reverse_eq_nil_iff, List.dropWhile_eq_nil_iff] at h
  have hc1 : c ∈ l.dropWhile pyWs := mem_dropWhile_of_not pyWs l c hc hp
  have := h c (List.mem_reverse.mpr hc1)
  rw [hp] at this
  cases this

theorem mem_joinNl (parts : List (List Char)) (p : List Char) (c : Char)
    (hp : p ∈ parts) (hc : c ∈ p) : c ∈ joinNl parts := by
  induction parts with
  | nil => cases hp
  | cons q qs ih =>
    rcases List.mem_cons.mp hp with rfl | hq
    · cases qs with
      | nil => exact hc
      | cons r rs => exact List.mem_append.mpr (Or.inl hc)
    · cases qs with
      | nil => cases hq
      | cons r rs =>
        exact List.mem_append.mpr (Or.inr (List.mem_cons_of_mem _ (ih hq)))

/-- The unit built for any page always carries its `[PÁGINA n]` marker,
so `_analyze_single_page`'s blank-input bailout never fires inside the
page loop. -/
theorem addPageContext_trim_ne (pages : List (List Char)) (pageText : List Char)
    (i total overlap : Nat) :
    strTrim (addPageContext pages pageText i total overlap) ≠ [] := by
  apply strTrim_ne_nil_of_mem _ '[' ?_ (by decide)
  simp only [addPageContext]
  apply mem_joinNl _
    ("[PÁGINA ".data ++ (Nat.repr (i + 1)).data ++ "]\n".data ++ pageText) '['
  · exact List.mem_append.mpr
      (Or.inl (List.mem_append.mpr (Or.inr (List.mem_singleton.mpr rfl))))
  · exact List.mem_append_left _
      (List.mem_append_left _ (List.mem_append_left _ (by decide)))

theorem analyzeSinglePage_raise (unit : List Char) (f : OracleFailure) :
    analyzeSinglePage unit (.raise f) = none := by
  unfold analyzeSinglePage
  split <;> rfl

/-- Merging the error response's own `documentAnalysis` payload is a
no-op: its seven buckets and relationship list are empty. -/
theorem mergeChunk_error_dafs (acc : AnalysisResult) (msg : String) :
    mergeChunk acc
      [("metadata", Json.obj
        [("title", .str "Error"), ("analysisDate", .str ""),
         ("provider", .str "LLMProvider"), ("error", .str msg)]),
       ("entities", emptyEntitiesJson), ("relationships", Json.arr [])] = acc := by
  refine AnalysisResult.ext ?_ ?_ ?_
  · funext t
    cases t <;> rfl
  · rfl
  · rfl

/-- C3, counterexample.  A chunk whose raw response is unparseable (the
`Malformed` outcome) contributes zero entities and zero relationships,
but appends **no** error entry: the parser's error response still
carries a `documentAnalysis` key, so `analyze_pdf` merges it as an empty
success instead of recording the failure — against the claimed "exactly
one entry" for Malformed/PromptRejected chunks. -/
theorem malformed_chunk_no_error_entry_cex :
    parseTolerant "not json" = createErrorResponse malformedMsg ∧
    (analyzePdf (fun _ => .reply "not json") (.raise .transport)
      ["some page text".data]).errors = [] ∧
    (∀ t, (analyzePdf (fun _ => .reply "not json") (.raise .transport)
      ["some page text".data]).entities t = []) ∧
    (analyzePdf (fun _ => .reply "not json") (.raise .transport)
      ["some page text".data]).relationships = [] := by
  refine ⟨rfl, rfl, ?_, rfl⟩
  intro t
  cases t <;> rfl

/-- C3, amended: a chunk whose oracle call raises `ContentFilterBlocked`
or `TransportError` contributes zero entities and zero relationships and
appends exactly one error entry naming the chunk; a chunk whose raw
response parses to the `Malformed`/`PromptRejected` error response also
contributes nothing but appends **no** error entry, leaving the
accumulator exactly unchanged.  In both cases the step returns normally,
so processing continues with the remaining chunks. -/
theorem chunk_failure_isolation :
    (∀ (pages : List (List Char)) (total : Nat) (acc : AnalysisResult)
        (i : Nat) (f : OracleFailure),
      processPage pages total acc i (.raise f) =
        { acc with errors := acc.errors ++ [pageErrorMsg i] }) ∧
    (∀ (pages : List (List Char)) (total : Nat) (acc : AnalysisResult)
        (i : Nat) (s msg : String),
      parseTolerant s = createErrorResponse msg →
      processPage pages total acc i (.reply s) = acc) := by
  constructor
  · intro pages total acc i f
    simp only [processPage, analyzeSinglePage_raise]
  · intro pages total acc i s msg hps
    have hA : analyzeSinglePage
        (addPageContext pages (pages.getD i []) i total 200) (.reply s) =
        some (createErrorResponse msg) := by
      unfold analyzeSinglePage
      rw [if_neg (addPageContext_trim_ne pages (pages.getD i []) i total 200)]
      exact congrArg some hps
    simp only [processPage, hA, createErrorResponse]
    exact mergeChunk_error_dafs acc msg

/-- Witness for `chunk_failure_isolation`: a raised transport error on
chunk 0, and a malformed reply whose parse is the error response. -/
theorem chunk_failure_isolation_witness :
    processPage [] 1
      { entities := fun _ => [], relationships := [], errors := [] } 0
      (.raise .transport) =
      { entities := fun _ => [], relationships := [],
        errors := [pageErrorMsg 0] } ∧
    processPage [] 1
      { entities := fun _ => [], relationships := [], errors := [] } 0
      (.reply "nope") =
      { entities := fun _ => [], relationships := [], errors := [] } :=
  ⟨chunk_failure_isolation.1 [] 1
    { entities := fun _ => [], relationships := [], errors := [] } 0 .transport,
   chunk_failure_isolation.2 [] 1
    { entities := fun _ => [], relationships := [], errors := [] } 0
    "nope" malformedMsg rfl⟩

/-! ## Claim C8 — the cross-chunk pass -/

theorem crossPageRelationships_raise (ents : EntityType → List Entity)
    (f : OracleFailure) : crossPageRelationships (.raise f) ents = [] := by
  unfold crossPageRelationships
  split <;> rfl

/-- C8, counterexample.  One chunk yields the entity `Ana`; the
cross-page call then raises `TransportError`.  The chunk-derived entity
survives and no relationships are added — but the failure is **not**
recorded: `errors` stays empty, against the claimed "exactly one errors
entry". -/
theorem cross_pass_failure_no_error_entry_cex :
    (analyzePdf (fun _ => .reply "\x7b\"documentAnalysis\":\x7b\"entities\":\x7b\"Person\":[\x7b\"name\":\"Ana\",\"aliases\":[]\x7d]\x7d,\"relationships\":[]\x7d\x7d")
      (.raise .transport) ["x".data]).errors = [] ∧
    (analyzePdf (fun _ => .reply "\x7b\"documentAnalysis\":\x7b\"entities\":\x7b\"Person\":[\x7b\"name\":\"Ana\",\"aliases\":[]\x7d]\x7d,\"relationships\":[]\x7d\x7d")
      (.raise .transport) ["x".data]).entities .Person = [⟨"Ana", [], ""⟩] ∧
    (analyzePdf (fun _ => .reply "\x7b\"documentAnalysis\":\x7b\"entities\":\x7b\"Person\":[\x7b\"name\":\"Ana\",\"aliases\":[]\x7d]\x7d,\"relationships\":[]\x7d\x7d")
      (.raise .transport) ["x".data]).relationships = [] := by
  refine ⟨rfl, rfl, rfl⟩

/-- C8, amended: the cross-chunk result is `[]` independently of the
oracle when every bucket is empty (the call is skipped); a raised
failure, or a reply that parses to the error response (malformed output
or refusal), contributes no relationships; and with a failing cross pass
the pipeline returns exactly the chunk-accumulated result — every
chunk-derived entity, relationship and error entry unchanged, and **no**
additional error entry recorded for the failed pass. -/
theorem cross_pass_isolation :
    (∀ ents : EntityType → List Entity, (∀ t, ents t = []) →
      ∀ o : OracleOutcome, crossPageRelationships o ents = []) ∧
    (∀ (ents : EntityType → List Entity) (f : OracleFailure),
      crossPageRelationships (.raise f) ents = []) ∧
    (∀ (ents : EntityType → List Entity) (s msg : String),
      parseTolerant s = createErrorResponse msg →
      crossPageRelationships (.reply s) ents = []) ∧
    (∀ (oracle : Nat → OracleOutcome) (pages : List (List Char))
        (f : OracleFailure),
      analyzePdf oracle (.raise f) pages =
        (List.range pages.length).foldl
          (fun acc i => processPage pages pages.length acc i (oracle i))
          { entities := fun _ => [], relationships := [], errors := [] }) := by
  refine ⟨?_, crossPageRelationships_raise, ?_, ?_⟩
  · intro ents h o
    unfold crossPageRelationships
    rw [if_pos]
    rw [List.all_eq_true]
    intro t ht
    simp [h t]
  · intro ents s msg hps
    unfold crossPageRelationships
    split
    · rfl
    · show (match parseTolerant s with
        | Json.arr xs => List.map relOfJson xs
        | _ => []) = []
      rw [hps]
      rfl
  · intro oracle pages f
    simp only [analyzePdf, crossPageRelationships_raise]
    rfl

/-- Witness for `cross_pass_isolation` at concrete inputs: an empty
inventory with an arbitrary reply, a malformed cross reply over a
non-empty inventory, and a one-page pipeline run with a raising cross
pass. -/
theorem cross_pass_isolation_witness :
    crossPageRelationships (.reply "ignored") (fun _ => []) = [] ∧
    crossPageRelationships (.reply "bad cross reply")
      (fun _ => [⟨"Ana", [], ""⟩]) = [] ∧
    analyzePdf (fun _ => .raise .contentFilter) (.raise .transport) ["x".data] =
      (List.range 1).foldl
        (fun acc i => processPage ["x".data] 1 acc i (.raise .contentFilter))
        { entities := fun _ => [], relationships := [], errors := [] } :=
  ⟨cross_pass_isolation.1 (fun _ => []) (fun _ => rfl) (.reply "ignored"),
   cross_pass_isolation.2.2.1 (fun _ => [⟨"Ana", [], ""⟩])
    "bad cross reply" malformedMsg rfl,
   cross_pass_isolation.2.2.2 (fun _ => .raise .contentFilter) ["x".data]
    .transport⟩

/-! ## Claim C9 — the context window -/

/-- C9, counterexample.  With a previous page of three spaces (shorter
than the overlap N = 200), the claim requires the previous-context
segment to be exactly that text; the code instead drops the whole
segment because the sliced context is blank (`if prev_context.strip():`),
so the unit carries no previous-context marker at all. -/
theorem blank_neighbor_context_omitted_cex :
    addPageContext ["   ".data, "abc".data, "d".data] "abc".data 1 3 200 =
      "[PÁGINA 2]\nabc\n\n[CONTEXTO PÁGINA SIGUIENTE]\nd".data ∧
    addPageContext ["   ".data, "abc".data, "d".data] "abc".data 1 3 200 ≠
      ("[CONTEXTO PÁGINA ANTERIOR]\n   \n".data ++
        "\n[PÁGINA 2]\nabc\n\n[CONTEXTO PÁGINA SIGUIENTE]\nd".data) := by
  constructor <;> decide

/-- C9, amended: when the sliced neighbour contexts are non-blank, the
unit is the marked trailing-N slice of the previous page, the marked
current text, and the marked leading-N slice of the next page, with the
previous segment present exactly for non-first and the next segment
exactly for non-last chunks (never padded); the slice of a text no
longer than N is exactly that full text, and of a longer text exactly
the trailing (resp. leading) N characters.  A neighbour whose sliced
context is blank after stripping loses its segment entirely. -/
theorem add_page_context_shape (pages : List (List Char))
    (pageText : List Char) (i total N : Nat)
    (hprev : 0 < i → strTrim (tailSlice N (pages.getD (i - 1) [])) ≠ [])
    (hnext : i < total - 1 → strTrim (headSlice N (pages.getD (i + 1) [])) ≠ []) :
    (addPageContext pages pageText i total N =
      (if 0 < i then
        "[CONTEXTO PÁGINA ANTERIOR]\n".data ++
          tailSlice N (pages.getD (i - 1) []) ++ ['\n', '\n']
       else []) ++
      "[PÁGINA ".data ++ (Nat.repr (i + 1)).data ++ "]\n".data ++ pageText ++
      (if i < total - 1 then
        ['\n', '\n'] ++ "[CONTEXTO PÁGINA SIGUIENTE]\n".data ++
          headSlice N (pages.getD (i + 1) [])
       else [])) ∧
    (∀ l : List Char, l.length ≤ N → tailSlice N l = l ∧ headSlice N l = l) ∧
    (∀ l : List Char, N < l.length → 0 < N →
      tailSlice N l = l.drop (l.length - N) ∧ (tailSlice N l).length = N ∧
      headSlice N l = l.take N ∧ (headSlice N l).length = N) := by
  refine ⟨?_, ?_, ?_⟩
  · simp only [addPageContext]
    by_cases hi : 0 < i <;> by_cases hlast : i < total - 1
    · rw [if_pos hi, if_pos hlast, if_pos (hprev hi), if_pos (hnext hlast),
        if_pos hi, if_pos hlast]
      simp [joinNl, List.append_assoc]
    · rw [if_pos hi, if_neg hlast, if_pos (hprev hi), if_pos hi, if_neg hlast]
      simp [joinNl, List.append_assoc]
    · rw [if_neg hi, if_pos hlast, if_pos (hnext hlast), if_neg hi, if_pos hlast]
      simp [joinNl, List.append_assoc]
    · rw [if_neg hi, if_neg hlast, if_neg hi, if_neg hlast]
      simp [joinNl, List.append_assoc]
  · intro l hl
    unfold tailSlice headSlice
    rw [if_neg (by omega), if_neg (by omega)]
    exact ⟨rfl, rfl⟩
  · intro l hl hN
    unfold tailSlice headSlice
    rw [if_pos (by omega), if_neg (by omega), if_pos (by omega)]
    refine ⟨rfl, ?_, rfl, ?_⟩
    · rw [List.length_drop]
      omega
    · rw [List.length_take]
      omega

/-- Witness for `add_page_context_shape`: the spec's own numbers — a
50-character previous page with overlap 200 contributes exactly its
full text as the previous-context segment. -/
theorem add_page_context_shape_witness :
    addPageContext [List.replicate 50 'a', "cuerpo".data, "siguiente".data]
      "cuerpo".data 1 3 200 =
      ("[CONTEXTO PÁGINA ANTERIOR]\n".data ++
        tailSlice 200 (List.replicate 50 'a') ++ ['\n', '\n']) ++
      "[PÁGINA ".data ++ (Nat.repr 2).data ++ "]\n".data ++ "cuerpo".data ++
      (['\n', '\n'] ++ "[CONTEXTO PÁGINA SIGUIENTE]\n".data ++
        headSlice 200 ("siguiente".data)) ∧
    tailSlice 200 (List.replicate 50 'a') = List.replicate 50 'a' ∧
    headSlice 200 (List.replicate 50 'a') = List.replicate 50 'a' := by
  have h := add_page_context_shape
    [List.replicate 50 'a', "cuerpo".data, "siguiente".data]
    "cuerpo".data 1 3 200 (fun _ => by decide) (fun _ => by decide)
  exact ⟨h.1, h.2.1 (List.replicate 50 'a') (by decide)⟩

/-! ## Claim C4 — truncation recovery -/

set_option maxRecDepth 8192 in
/-- C4, counterexample (the spec's own example, §8).  For the
relationship array whose last element is cut off, the right-most `}` is
the end of the first element, so the retried prefix still lacks the
closing `]` and fails to parse: the result is the `Malformed` error
response, **not** the one-item list that parsing the completed array
yields. -/
theorem truncated_array_not_recovered_cex :
    parseTolerant "[\x7b\"subject\":\x7b\"type\":\"Person\",\"name\":\"A\"\x7d,\"action\":\"x\",\"object\":\x7b\"type\":\"Organization\",\"name\":\"B\"\x7d\x7d,\x7b\"subject\":"
      = createErrorResponse malformedMsg ∧
    parseTolerant "[\x7b\"subject\":\x7b\"type\":\"Person\",\"name\":\"A\"\x7d,\"action\":\"x\",\"object\":\x7b\"type\":\"Organization\",\"name\":\"B\"\x7d\x7d]"
      = Json.arr [Json.obj
          [("subject", Json.obj [("type", Json.str "Person"), ("name", Json.str "A")]),
           ("action", Json.str "x"),
           ("object", Json.obj [("type", Json.str "Organization"), ("name", Json.str "B")])]] ∧
    parseTolerant "[\x7b\"subject\":\x7b\"type\":\"Person\",\"name\":\"A\"\x7d,\"action\":\"x\",\"object\":\x7b\"type\":\"Organization\",\"name\":\"B\"\x7d\x7d,\x7b\"subject\":"
      ≠ parseTolerant "[\x7b\"subject\":\x7b\"type\":\"Person\",\"name\":\"A\"\x7d,\"action\":\"x\",\"object\":\x7b\"type\":\"Organization\",\"name\":\"B\"\x7d\x7d]" := by
  refine ⟨rfl, rfl, fun h => Json.noConfusion h⟩

/-- C4, amended: recovery never partially applies — the returned value
is always a full successful parse of either the cleaned response or its
prefix truncated at the right-most closer (retried only when that
position is positive), and otherwise the result is the distinguished
`PromptRejected` or `Malformed` error response.  However, truncating a
relationship array whose last element is cut off leaves the array
unterminated, so such input yields `Malformed`, not the complete
elements. -/
theorem parse_tolerant_all_or_nothing (s : String) :
    (∃ v, jsonLoads (cleanResponse s.data) = some v ∧ parseTolerant s = v) ∨
    (jsonLoads (cleanResponse s.data) = none ∧
      lastClosePos (cleanResponse s.data) > 0 ∧
      ∃ v, jsonLoads ((cleanResponse s.data).take
          ((lastClosePos (cleanResponse s.data)).toNat + 1)) = some v ∧
        parseTolerant s = v) ∨
    (jsonLoads (cleanResponse s.data) = none ∧
      (parseTolerant s = createErrorResponse promptRejectedMsg ∨
       parseTolerant s = createErrorResponse malformedMsg)) := by
  cases h1 : jsonLoads (cleanResponse s.data) with
  | some v => exact Or.inl ⟨v, rfl, by simp only [parseTolerant, h1]⟩
  | none =>
    by_cases h2 : lastClosePos (cleanResponse s.data) > 0
    · cases h3 : jsonLoads ((cleanResponse s.data).take
          ((lastClosePos (cleanResponse s.data)).toNat + 1)) with
      | some v =>
        exact Or.inr (Or.inl ⟨rfl, h2, v, rfl,
          by simp only [parseTolerant, h1, if_pos h2, h3]⟩)
      | none =>
        refine Or.inr (Or.inr ⟨rfl, ?_⟩)
        simp only [parseTolerant, h1, if_pos h2, h3]
        split
        · exact Or.inl rfl
        · exact Or.inr rfl
    · refine Or.inr (Or.inr ⟨rfl, ?_⟩)
      simp only [parseTolerant, h1, if_neg h2]
      split
      · exact Or.inl rfl
      · exact Or.inr rfl

/-! ## Claim C10 — totality and shape of the tolerant parser -/

/-- C10: the tolerant parser is total by construction (every `except` of
the source is a value here), and whenever both the strict parse and the
truncation retry fail — including the empty string and arbitrary
non-JSON text — the result is the structured error response, whose
`documentAnalysis` payload carries the fixed shape: all seven entity
buckets empty and no relationships. -/
theorem parse_tolerant_total_shape (s : String)
    (h1 : jsonLoads (cleanResponse s.data) = none)
    (h2 : jsonLoads ((cleanResponse s.data).take
      ((lastClosePos (cleanResponse s.data)).toNat + 1)) = none) :
    ∃ msg, parseTolerant s = createErrorResponse msg ∧
      ∃ dafs, createErrorResponse msg =
        Json.obj [("documentAnalysis", Json.obj dafs)] ∧
        (∀ t, entityBuckets dafs t = []) ∧ relBucket dafs = [] := by
  have hshape : ∀ msg : String, ∃ dafs, createErrorResponse msg =
      Json.obj [("documentAnalysis", Json.obj dafs)] ∧
      (∀ t, entityBuckets dafs t = []) ∧ relBucket dafs = [] := by
    intro msg
    refine ⟨[("metadata", Json.obj
      [("title", .str "Error"), ("analysisDate", .str ""),
       ("provider", .str "LLMProvider"), ("error", .str msg)]),
      ("entities", emptyEntitiesJson), ("relationships", Json.arr [])],
      rfl, ?_, rfl⟩
    intro t
    cases t <;> rfl
  have hout : parseTolerant s = createErrorResponse promptRejectedMsg ∨
      parseTolerant s = createErrorResponse malformedMsg := by
    by_cases h3 : lastClosePos (cleanResponse s.data) > 0
    · simp only [parseTolerant, h1, if_pos h3, h2]
      split
      · exact Or.inl rfl
      · exact Or.inr rfl
    · simp only [parseTolerant, h1, if_neg h3]
      split
      · exact Or.inl rfl
      · exact Or.inr rfl
  rcases hout with h | h
  · exact ⟨promptRejectedMsg, h, hshape promptRejectedMsg⟩
  · exact ⟨malformedMsg, h, hshape malformedMsg⟩

/-- Witness for `parse_tolerant_total_shape` at the empty string, on
which both parse attempts fail. -/
theorem parse_tolerant_total_shape_witness :
    ∃ msg, parseTolerant "" = createErrorResponse msg ∧
      ∃ dafs, createErrorResponse msg =
        Json.obj [("documentAnalysis", Json.obj dafs)] ∧
        (∀ t, entityBuckets dafs t = []) ∧ relBucket dafs = [] :=
  parse_tolerant_total_shape "" rfl rfl

/-! ## Claim C5 — idempotence of the normalizer -/

theorem charConcatMap_fix (f : Char → List Char) (l : List Char)
    (h : ∀ c ∈ l, f c = [c]) : charConcatMap f l = l := by
  induction l with
  | nil => rfl
  | cons c cs ih =>
    rw [charConcatMap, h c (List.mem_cons_self c cs),
      ih fun d hd => h d (List.mem_cons_of_mem c hd)]
    rfl

theorem charConcatMap_append (f : Char → List Char) (a b : List Char) :
    charConcatMap f (a ++ b) = charConcatMap f a ++ charConcatMap f b := by
  induction a with
  | nil => rfl
  | cons c cs ih => rw [List.cons_append, charConcatMap, charConcatMap, ih,
      List.append_assoc]

theorem filter_charConcatMap (p : Char → Bool) (f : Char → List Char)
    (l : List Char) :
    (charConcatMap f l).filter p = charConcatMap (fun c => (f c).filter p) l := by
  induction l with
  | nil => rfl
  | cons c cs ih => rw [charConcatMap, List.filter_append, ih]; rfl

theorem charConcatMap_comp (g f : Char → List Char) (l : List Char) :
    charConcatMap g (charConcatMap f l) =
      charConcatMap (fun c => charConcatMap g (f c)) l := by
  induction l with
  | nil => rfl
  | cons c cs ih => rw [charConcatMap, charConcatMap_append, ih]; rfl

theorem mem_charConcatMap (f : Char → List Char) (l : List Char) (x : Char) :
    x ∈ charConcatMap f l ↔ ∃ c ∈ l, x ∈ f c := by
  induction l with
  | nil => simp [charConcatMap]
  | cons c cs ih => simp [charConcatMap, List.mem_append, ih]

theorem normChars_eq_charConcatMap (l : List Char) :
    normChars l = charConcatMap
      (fun c => ((charConcatMap nfkdChar (pyLowerChar c)).filter
        (fun d => !(combiningChar d))).filter (fun d => !(sepChar d))) l := by
  unfold normChars
  rw [charConcatMap_comp, filter_charConcatMap, filter_charConcatMap]

theorem normChars_eq_self (l : List Char)
    (h : ∀ x ∈ l, pyLowerChar x = [x] ∧ nfkdChar x = [x] ∧
      combiningChar x = false ∧ sepChar x = false) :
    normChars l = l := by
  unfold normChars
  rw [charConcatMap_fix pyLowerChar l fun c hc => (h c hc).1,
    charConcatMap_fix nfkdChar l fun c hc => (h c hc).2.1,
    List.filter_eq_self.mpr fun c hc =>
      by simp [(h c (List.mem_of_mem_filter hc)).2.2.2],
    List.filter_eq_self.mpr fun c hc => by simp [(h c hc).2.2.1]]

/-- Every character the normalizer emits for a repertoire character is
fixed by a further lower/decompose pass and is neither combining nor a
separator. -/
theorem goodChars_norm_stable : ∀ c ∈ goodChars,
    ∀ x ∈ ((charConcatMap nfkdChar (pyLowerChar c)).filter
      (fun d => !(combiningChar d))).filter (fun d => !(sepChar d)),
    pyLowerChar x = [x] ∧ nfkdChar x = [x] ∧
      combiningChar x = false ∧ sepChar x = false := by decide

/-- C5, counterexample.  `normalize` is not idempotent on every string:
for `№` (U+2116, no lowercase form, NFKD compatibility decomposition
"No"), one pass yields `"No"` — whose uppercase `N` a second pass
lower-cases to `"no"`.  (`™` → `"TM"` → `"tm"` behaves the same way.) -/
theorem normalize_not_idempotent_cex :
    normStr (normStr "№") ≠ normStr "№" ∧
    normStr "№" = "No" ∧ normStr (normStr "№") = "no" := by
  refine ⟨?_, rfl, rfl⟩
  decide

/-- C5, amended: `normalize` is idempotent on every string over the
intended repertoire — printable ASCII and the Spanish diacritic letters
— because one pass emits only lowercase, decomposition-free,
non-combining, non-separator characters there.  It is not idempotent on
all of Unicode: compatibility characters whose decomposition introduces
uppercase letters (`№`, `™`) gain a further change on the second pass. -/
theorem normalize_idempotent_on_repertoire (s : String)
    (h : ∀ c ∈ s.data, c ∈ goodChars) :
    normStr (normStr s) = normStr s := by
  have hstable : ∀ x ∈ normChars s.data,
      pyLowerChar x = [x] ∧ nfkdChar x = [x] ∧
        combiningChar x = false ∧ sepChar x = false := by
    intro x hx
    rw [normChars_eq_charConcatMap, mem_charConcatMap] at hx
    obtain ⟨c, hc, hxc⟩ := hx
    exact goodChars_norm_stable c (h c hc) x hxc
  show (⟨normChars (normStr s).data⟩ : String) = normStr s
  rw [show (normStr s).data = normChars s.data from rfl,
    normChars_eq_self (normChars s.data) hstable]
  rfl

/-- Witness for `normalize_idempotent_on_repertoire` at the spec's own
example string. -/
theorem normalize_idempotent_witness :
    normStr (normStr "Mao Tse-tung") = normStr "Mao Tse-tung" :=
  normalize_idempotent_on_repertoire "Mao Tse-tung" (by decide)
